import Mathlib

/-!
# FunctorFactory: a string-keyed registry of type-erased constructors

A shallow embedding of `src/FunctorFactory.h` (namespace `asw`) and of the
demonstration program `src/Functor-Factory-Test.cpp`.

Modelling decisions

* A template parameter pack `A...` is a code `σ : Sig` together with the type
  `Args σ` of argument tuples of that shape.  `Sig` has decidable equality; it
  plays the role of the static type the caller asserts.
* `Base` (declared in the absent header `Base.h`) and the exception type `E`
  are parameters.  A `Base *` is an `Option Base`: `none` is `nullptr`.
* The free store holding the `DerivedFunctor` objects is a list of cells; the
  address of a cell is its index, `new` appends a cell, `delete` empties it.
* `std::map<std::string, Functor*>` is a finite map with unique keys
  (`AList`): `find`, `operator[]` assignment and `erase` are `lookup`,
  `insert` and `erase`.
* Two ghost logs record, in order, the addresses passed to `delete` and the
  addresses of the functors whose `operator()` was called.
* A wrapped function is a pure function of its arguments that either returns
  or throws; it does not touch the registry.
* The body of a member function completes by a `return` statement or by
  flowing off its end; for a function whose return type is not `void` the
  latter is undefined behaviour.
* For the claims about handle lifetimes, a `World` carries, next to the state,
  the live and the destroyed handles, each paired with the address of the
  creator its constructor allocated.
-/

namespace asw

/-- Addresses of functor objects on the free store. -/
abbrev Ptr := Nat

/-- What a call can do: return a value, let an exception escape, or run into
undefined behaviour (an invalid `static_cast`, a dangling pointer). -/
inductive Outcome (E R : Type) where
  | value (r : R)
  | raised (e : E)
  | undefined
  deriving DecidableEq

namespace FunctorFactory

/-- `DerivedFunctor<R, A...>`: the field `_f` is the wrapped function pointer
`R (*_f)(A...)`; the function either returns an `R` or throws an `E`. -/
structure DerivedFunctor (E R A : Type) where
  _f : A → Except E R

/-- `DerivedFunctor(R (*f)(A...))`: `_f = f`. -/
def DerivedFunctor.ctor {E R A : Type} (f : A → Except E R) : DerivedFunctor E R A :=
  { _f := f }

/-- `DerivedFunctor(const DerivedFunctor& df)`: `_f = df._f`. -/
def DerivedFunctor.copy {E R A : Type} (df : DerivedFunctor E R A) : DerivedFunctor E R A :=
  { _f := df._f }

/-- `operator()(A... args)`: `return _f(args...)`. -/
def DerivedFunctor.call {E R A : Type} (self : DerivedFunctor E R A) (args : A) : Except E R :=
  self._f args

/-- How control leaves the body of a member function: through a `return`
statement, or by flowing off the end of the body.  `self` is the object after
the statements that were executed. -/
inductive Completion (S R : Type) where
  | returned (r : R) (self : S)
  | flowedOff (self : S)

/-- A call of a function whose return type is not `void`: a `return` statement
gives the returned value and the object; flowing off the end of the body is
undefined behaviour. -/
def Completion.nonVoid {S R : Type} : Completion S R → Outcome Empty (R × S)
  | .returned r self => .value (r, self)
  | .flowedOff _ => .undefined

/-- The body of `operator=(const DerivedFunctor<R,A...>& df)`.  It is the
single statement `_f = df._f;` and has no `return` statement. -/
def DerivedFunctor.assignBody {E R A : Type} (self df : DerivedFunctor E R A) :
    Completion (DerivedFunctor E R A) (DerivedFunctor E R A) :=
  .flowedOff { self with _f := df._f }

/-- `DerivedFunctor<R,A...>& operator=(const DerivedFunctor<R,A...>& df)`: a
call of the operator, whose declared return type is a reference.  A normal
return would give the returned reference and the assigned object. -/
def DerivedFunctor.assign {E R A : Type} (self df : DerivedFunctor E R A) :
    Outcome Empty (DerivedFunctor E R A × DerivedFunctor E R A) :=
  (self.assignBody df).nonVoid

/-- An object seen through a `Functor *`: its dynamic type is
`DerivedFunctor<Base*, A...>` for the pack coded by `sig`. -/
structure Functor (Sig : Type) (Args : Sig → Type) (E Base : Type) where
  sig : Sig
  df : DerivedFunctor E (Option Base) (Args sig)

/-- `static_cast<DerivedFunctor<Base*,A...>*>(p)` on the object `p` points to.
The cast is unchecked in the source; it is defined only when the dynamic type
of the object is the asserted one, anything else is undefined behaviour
(`none`). -/
def static_cast {Sig : Type} [DecidableEq Sig] {Args : Sig → Type} {E Base : Type}
    (σ : Sig) (f : Functor Sig Args E Base) :
    Option (DerivedFunctor E (Option Base) (Args σ)) :=
  if h : f.sig = σ then some (h ▸ f.df) else none

/-- The process state the factory works on: the free store of functors, the
function-local static `m_map` of `getMap()`, and the two ghost logs. -/
structure State (Sig : Type) (Args : Sig → Type) (E Base : Type) where
  heap : List (Option (Functor Sig Args E Base))
  m_map : AList (fun _ : String => Ptr)
  freed : List Ptr
  invoked : List Ptr

/-- The state before the first use of the factory: nothing allocated, `m_map`
freshly constructed (empty). -/
def State.init {Sig : Type} {Args : Sig → Type} {E Base : Type} : State Sig Args E Base :=
  { heap := [], m_map := ∅, freed := [], invoked := [] }

/-- `getMap()`: a reference to the static map. -/
def getMap {Sig : Type} {Args : Sig → Type} {E Base : Type}
    (s : State Sig Args E Base) : AList (fun _ : String => Ptr) :=
  s.m_map

/-- The object a pointer designates, if it is allocated and not yet deleted. -/
def State.deref {Sig : Type} {Args : Sig → Type} {E Base : Type}
    (s : State Sig Args E Base) (p : Ptr) : Option (Functor Sig Args E Base) :=
  s.heap[p]?.join

/-- The expression `new DerivedFunctor<Base*,A...>(f)`: a fresh cell at the end of the
free store; returns its address. -/
def State.alloc {Sig : Type} {Args : Sig → Type} {E Base : Type}
    (s : State Sig Args E Base) (f : Functor Sig Args E Base) : Ptr × State Sig Args E Base :=
  (s.heap.length, { s with heap := s.heap ++ [some f] })

/-- The statement `delete p`: the cell is emptied and the address is logged. -/
def State.delete {Sig : Type} {Args : Sig → Type} {E Base : Type}
    (s : State Sig Args E Base) (p : Ptr) : State Sig Args E Base :=
  { s with heap := s.heap.set p none, freed := s.freed ++ [p] }

/-- `create<U, A...>(A... args)`: `return new U(args...)`.  `U` is given by its
constructor; a `new` expression never yields `nullptr`. -/
def create {E Base A : Type} (U : A → Except E Base) (args : A) : Except E (Option Base) :=
  match U args with
  | .ok obj => .ok (some obj)
  | .error e => .error e

/-- `Registrator<U, A...>`: its only data member is `m_key`. -/
structure Registrator where
  m_key : String
  deriving DecidableEq

/-- `Registrator<U,A...>::Registrator(const std::string &key)`:
`df = new DerivedFunctor<Base*,A...>(create<U,A...>); getMap()[key] = df; m_key = key;` -/
def Registrator.ctor {Sig : Type} {Args : Sig → Type} {E Base : Type}
    (σ : Sig) (U : Args σ → Except E Base) (key : String)
    (s : State Sig Args E Base) : Registrator × State Sig Args E Base :=
  let (df, s1) := s.alloc { sig := σ, df := DerivedFunctor.ctor (create U) }
  ({ m_key := key }, { s1 with m_map := s1.m_map.insert key df })

/-- `Registrator<U,A...>::~Registrator()`:
`it = getMap().find(m_key); if (it != getMap().end()) { delete it->second; getMap().erase(it); }` -/
def Registrator.dtor {Sig : Type} {Args : Sig → Type} {E Base : Type}
    (self : Registrator) (s : State Sig Args E Base) : State Sig Args E Base :=
  match (getMap s).lookup self.m_key with
  | some p =>
    let s1 := s.delete p
    { s1 with m_map := s1.m_map.erase self.m_key }
  | none => s

/-- `createObject<A...>(const std::string &skey, A... args)`:
`it = getMap().find(skey); if (it == getMap().end()) return nullptr;`
`df = static_cast<DerivedFunctor<Base*,A...>*>(it->second); return (*df)(args...);` -/
def createObject {Sig : Type} [DecidableEq Sig] {Args : Sig → Type} {E Base : Type}
    (σ : Sig) (skey : String) (args : Args σ) (s : State Sig Args E Base) :
    Outcome E (Option Base) × State Sig Args E Base :=
  match (getMap s).lookup skey with
  | none => (.value none, s)
  | some p =>
    match (s.deref p).bind (static_cast σ) with
    | none => (.undefined, s)
    | some df =>
      let s1 := { s with invoked := s.invoked ++ [p] }
      match df.call args with
      | .ok r => (.value r, s1)
      | .error e => (.raised e, s1)

/-- One use of the public interface: a handle is constructed, a handle is
destroyed, or `createObject` is called. -/
inductive Op (Sig : Type) (Args : Sig → Type) (E Base : Type) where
  | construct (σ : Sig) (U : Args σ → Except E Base) (key : String)
  | destroy (h : Registrator)
  | create (σ : Sig) (skey : String) (args : Args σ)

/-- The state after one use of the interface. -/
def step {Sig : Type} [DecidableEq Sig] {Args : Sig → Type} {E Base : Type}
    (s : State Sig Args E Base) : Op Sig Args E Base → State Sig Args E Base
  | .construct σ U key => (Registrator.ctor σ U key s).2
  | .destroy h => h.dtor s
  | .create σ skey args => (createObject σ skey args s).2

/-- The state after a sequence of uses of the interface, first use first. -/
def run {Sig : Type} [DecidableEq Sig] {Args : Sig → Type} {E Base : Type}
    (ops : List (Op Sig Args E Base)) (s : State Sig Args E Base) : State Sig Args E Base :=
  ops.foldl step s

/-- The states the program can be in: those that some sequence of uses of the
interface produces from the initial state.  `m_map` is private, so nothing
else modifies it. -/
def Reachable {Sig : Type} [DecidableEq Sig] {Args : Sig → Type} {E Base : Type}
    (s : State Sig Args E Base) : Prop :=
  ∃ ops : List (Op Sig Args E Base), run ops State.init = s

/-- What every reachable state satisfies: each creator stored in the registry
is allocated and not deleted, and no creator is stored under two keys. -/
def Inv {Sig : Type} {Args : Sig → Type} {E Base : Type} (s : State Sig Args E Base) : Prop :=
  (∀ (k : String) (p : Ptr), (getMap s).lookup k = some p → (s.deref p).isSome = true) ∧
  (∀ (k₁ k₂ : String) (p : Ptr),
    (getMap s).lookup k₁ = some p → (getMap s).lookup k₂ = some p → k₁ = k₂)

/-- What every reachable state satisfies about deletions: an address in the
deletion log is an allocated address whose cell is empty, and no address
occurs in the log twice. -/
def FreedInv {Sig : Type} {Args : Sig → Type} {E Base : Type}
    (s : State Sig Args E Base) : Prop :=
  (∀ p : Ptr, p ∈ s.freed → p < s.heap.length ∧ s.deref p = none) ∧ s.freed.Nodup

/-- A handle object together with the address of the creator that its
constructor allocated.  The handle itself stores only its key; the address
tells apart handles that were constructed under the same key. -/
structure Handle where
  reg : Registrator
  made : Ptr
  deriving DecidableEq

/-- The factory state together with the handles that were constructed and are
not yet destroyed, and the handles destroyed so far, oldest first. -/
structure World (Sig : Type) (Args : Sig → Type) (E Base : Type) where
  st : State Sig Args E Base
  live : List Handle
  dead : List Handle

/-- The initial state, with no handle constructed yet. -/
def World.init {Sig : Type} {Args : Sig → Type} {E Base : Type} : World Sig Args E Base :=
  { st := State.init, live := [], dead := [] }

/-- What a program does with the factory: it constructs a handle, destroys a
handle, or calls `createObject`. -/
inductive Event (Sig : Type) (Args : Sig → Type) (E Base : Type) where
  | construct (σ : Sig) (U : Args σ → Except E Base) (key : String)
  | destroy (h : Handle)
  | create (σ : Sig) (skey : String) (args : Args σ)

/-- One event.  The constructor of a handle allocates its creator at the next
free address; a handle can be destroyed only while it is live, and then its
destructor runs. -/
def World.step {Sig : Type} [DecidableEq Sig] {Args : Sig → Type} {E Base : Type}
    (w : World Sig Args E Base) : Event Sig Args E Base → Option (World Sig Args E Base)
  | .construct σ U key =>
    some { st := (Registrator.ctor σ U key w.st).2,
           live := w.live ++ [⟨(Registrator.ctor σ U key w.st).1, w.st.heap.length⟩],
           dead := w.dead }
  | .destroy h =>
    if h ∈ w.live then
      some { st := h.reg.dtor w.st, live := w.live.erase h, dead := w.dead ++ [h] }
    else none
  | .create σ skey args =>
    some { st := (createObject σ skey args w.st).2, live := w.live, dead := w.dead }

/-- A sequence of events, first event first; `none` when some event is not
possible. -/
def World.run {Sig : Type} [DecidableEq Sig] {Args : Sig → Type} {E Base : Type} :
    List (Event Sig Args E Base) → World Sig Args E Base → Option (World Sig Args E Base)
  | [], w => some w
  | e :: es, w => (w.step e).bind (World.run es)

/-- The one-handle-per-key discipline for one event: no handle is constructed
under a key that a live handle holds. -/
def World.disciplined {Sig : Type} {Args : Sig → Type} {E Base : Type}
    (w : World Sig Args E Base) : Event Sig Args E Base → Bool
  | .construct _ _ key => w.live.all (fun h => h.reg.m_key != key)
  | .destroy _ => true
  | .create _ _ _ => true

/-- A sequence of events that keeps the one-handle-per-key discipline; `none`
when some event is not possible or breaks the discipline. -/
def World.runDisciplined {Sig : Type} [DecidableEq Sig] {Args : Sig → Type} {E Base : Type} :
    List (Event Sig Args E Base) → World Sig Args E Base → Option (World Sig Args E Base)
  | [], w => some w
  | e :: es, w =>
    if w.disciplined e then (w.step e).bind (World.runDisciplined es) else none

/-- What holds of the registry and the handles under the discipline: every
live handle has its key mapped to its own creator, every entry of the registry
belongs to a live handle, no handle is live twice, the deletion log lists the
creators of the destroyed handles in the order of destruction, and the
allocated addresses are, each exactly once, the creators of the live and the
destroyed handles. -/
def Mirror {Sig : Type} {Args : Sig → Type} {E Base : Type} (w : World Sig Args E Base) : Prop :=
  (∀ h : Handle, h ∈ w.live → (getMap w.st).lookup h.reg.m_key = some h.made) ∧
  (∀ (k : String) (p : Ptr), (getMap w.st).lookup k = some p → (⟨⟨k⟩, p⟩ : Handle) ∈ w.live) ∧
  w.live.Nodup ∧
  w.st.freed = w.dead.map Handle.made ∧
  ((w.live ++ w.dead).map Handle.made).Perm (List.range w.st.heap.length)

/-- Every key of the registry is the key of a live handle. -/
def Held {Sig : Type} {Args : Sig → Type} {E Base : Type} (w : World Sig Args E Base) : Prop :=
  ∀ k : String, k ∈ getMap w.st → ∃ h : Handle, h ∈ w.live ∧ h.reg.m_key = k

end FunctorFactory

/-! ## The demonstration program -/

namespace Test

/-- The argument types that occur in the demonstration program and in the
usage example of the header. -/
inductive CType where
  | int
  | float
  | cstr
  deriving DecidableEq

/-- Values of an argument type.  A `float` is modelled by the rational it
denotes, an `int` by an integer; the demonstration only computes values in
the range where `int` and `float` arithmetic is exact. -/
abbrev CType.denote : CType → Type
  | .int => Int
  | .float => Rat
  | .cstr => String

/-- Argument tuples for a list of argument types. -/
abbrev Pack : List CType → Type
  | [] => Unit
  | t :: ts => t.denote × Pack ts

/-- Objects derived from `Base` in the demonstration, each with the number its
constructor wrote to `cout`. -/
inductive Obj where
  | derived_1 (printed : Rat)
  | derived_2 (printed : Int)
  deriving DecidableEq

/-- `derived_1(int i, int j, float f)`: prints `i * j + f`. -/
def derived_1 : Pack [.int, .int, .float] → Except Unit Obj
  | (i, j, f, ()) => .ok (.derived_1 (((i * j : Int) : Rat) + f))

/-- `derived_2(int i, int j)`: prints `i + j`. -/
def derived_2 : Pack [.int, .int] → Except Unit Obj
  | (i, j, ()) => .ok (.derived_2 (i + j))

/-- The state when `main` starts: `FF_MACRO(name_1, derived_1, int,int,float)`
and `FF_MACRO(name_2, derived_2, int,int)` have run, in this order. -/
def atMain : FunctorFactory.State (List CType) Pack Unit Obj :=
  let s1 := (FunctorFactory.Registrator.ctor [.int, .int, .float] derived_1 "name_1"
    FunctorFactory.State.init).2
  (FunctorFactory.Registrator.ctor [.int, .int] derived_2 "name_2" s1).2

/-- Two handles registered under the same key `"name_1"`, the first for
`derived_1` and, while it is live, the second for `derived_2`, starting from the
initial state: the two handles and the state after both constructors. -/
def twoHandles : FunctorFactory.Registrator × FunctorFactory.Registrator ×
    FunctorFactory.State (List CType) Pack Unit Obj :=
  let r1 := FunctorFactory.Registrator.ctor [.int, .int, .float] derived_1 "name_1"
    FunctorFactory.State.init
  let r2 := FunctorFactory.Registrator.ctor [.int, .int] derived_2 "name_1" r1.2
  (r1.1, r2.1, r2.2)

/-- An instance for the exception path that the header documents for
`createObject` ("any exception the constructor of this requested object can
throw"): a type whose constructor `thrower(const char *)` always throws.  It is
not part of the demonstration program. -/
def thrower : Pack [.cstr] → Except Unit Obj :=
  fun _ => .error ()

end Test

end asw

/-! ## Basic facts about the operations -/

namespace asw.FunctorFactory

section Basics

variable {Sig : Type} {Args : Sig → Type} {E Base : Type}

theorem static_cast_same [DecidableEq Sig] (σ : Sig)
    (df : DerivedFunctor E (Option Base) (Args σ)) :
    static_cast σ ({ sig := σ, df := df } : Functor Sig Args E Base) = some df := by
  simp [static_cast]

theorem deref_alloc_old (s : State Sig Args E Base) (f g : Functor Sig Args E Base) (p : Ptr)
    (h : s.deref p = some g) : (s.alloc f).2.deref p = some g := by
  have hlt : p < s.heap.length := by
    by_contra hge
    have hnone : s.heap[p]? = none := List.getElem?_eq_none (Nat.le_of_not_lt hge)
    simp [State.deref, hnone] at h
  simpa [State.alloc, State.deref, List.getElem?_append_left hlt] using h

theorem ctor_state (σ : Sig) (U : Args σ → Except E Base) (key : String)
    (s : State Sig Args E Base) :
    (Registrator.ctor σ U key s).2 =
      { heap := s.heap ++ [some { sig := σ, df := DerivedFunctor.ctor (create U) }],
        m_map := s.m_map.insert key s.heap.length,
        freed := s.freed,
        invoked := s.invoked } := rfl

theorem ctor_handle (σ : Sig) (U : Args σ → Except E Base) (key : String)
    (s : State Sig Args E Base) : (Registrator.ctor σ U key s).1 = { m_key := key } := rfl

theorem dtor_found (h : Registrator) (s : State Sig Args E Base) (p : Ptr)
    (hp : (getMap s).lookup h.m_key = some p) :
    h.dtor s =
      { heap := s.heap.set p none,
        m_map := s.m_map.erase h.m_key,
        freed := s.freed ++ [p],
        invoked := s.invoked } := by
  simp [Registrator.dtor, hp, State.delete]

theorem dtor_absent (h : Registrator) (s : State Sig Args E Base)
    (hp : (getMap s).lookup h.m_key = none) : h.dtor s = s := by
  simp [Registrator.dtor, hp]

theorem createObject_absent [DecidableEq Sig] (σ : Sig) (skey : String) (args : Args σ)
    (s : State Sig Args E Base) (h : (getMap s).lookup skey = none) :
    createObject σ skey args s = (.value none, s) := by
  simp [createObject, h]

theorem createObject_found [DecidableEq Sig] (σ : Sig) (skey : String) (args : Args σ)
    (s : State Sig Args E Base) (p : Ptr) (df : DerivedFunctor E (Option Base) (Args σ))
    (hk : (getMap s).lookup skey = some p) (hp : s.deref p = some { sig := σ, df := df }) :
    createObject σ skey args s =
      ((match df._f args with
        | .ok r => Outcome.value r
        | .error e => Outcome.raised e),
       { s with invoked := s.invoked ++ [p] }) := by
  simp only [createObject, hk, hp, Option.bind, static_cast_same, DerivedFunctor.call]
  cases df._f args <;> rfl

theorem createObject_after_ctor [DecidableEq Sig] (σ : Sig) (U : Args σ → Except E Base)
    (key : String) (args : Args σ) (s : State Sig Args E Base) :
    createObject σ key args (Registrator.ctor σ U key s).2 =
      ((match U args with
        | .ok obj => Outcome.value (some obj)
        | .error e => Outcome.raised e),
       { (Registrator.ctor σ U key s).2 with invoked := s.invoked ++ [s.heap.length] }) := by
  have hk : (getMap (Registrator.ctor σ U key s).2).lookup key = some s.heap.length := by
    simp [getMap, ctor_state]
  have hp : (Registrator.ctor σ U key s).2.deref s.heap.length
      = some { sig := σ, df := DerivedFunctor.ctor (create U) } := by
    simp [ctor_state, State.deref]
  rw [createObject_found σ key args _ _ _ hk hp]
  simp only [DerivedFunctor.ctor, create, ctor_state]
  cases U args <;> rfl

end Basics

end asw.FunctorFactory

/-! ## Lookup of a missing key, the round trip, and handle destruction -/

namespace asw.FunctorFactory

section Contracts

variable {Sig : Type} [DecidableEq Sig] {Args : Sig → Type} {E Base : Type}

/-- C1: in every state, for every key that has no entry in the registry and
every argument list, `createObject` returns `nullptr` (the not-found result),
lets no exception escape, and leaves the whole state as it was; in particular
the log of invoked creators does not grow, so no creator is invoked. -/
theorem createObject_missing_key (s : State Sig Args E Base) (σ : Sig) (K : String)
    (args : Args σ) (hK : (getMap s).lookup K = none) :
    (createObject σ K args s).1 = Outcome.value none ∧
    (createObject σ K args s).2 = s ∧
    (createObject σ K args s).2.invoked = s.invoked := by
  rw [createObject_absent σ K args s hK]
  exact ⟨rfl, rfl, rfl⟩

/-- Witness for C1: in the demonstration program, `"name_3"` is not registered
when `main` starts, and `createObject("name_3", 8, 8, 3.0)` yields `nullptr`. -/
theorem createObject_missing_key_witness :
    (getMap Test.atMain).lookup "name_3" = none ∧
    ((createObject [.int, .int, .float] "name_3" ((8 : Int), (8 : Int), (3 : Rat), ())
        Test.atMain).1 = Outcome.value none ∧
     (createObject [.int, .int, .float] "name_3" ((8 : Int), (8 : Int), (3 : Rat), ())
        Test.atMain).2 = Test.atMain ∧
     (createObject [.int, .int, .float] "name_3" ((8 : Int), (8 : Int), (3 : Rat), ())
        Test.atMain).2.invoked = Test.atMain.invoked) :=
  ⟨by decide, createObject_missing_key Test.atMain _ "name_3" _ (by decide)⟩

/-- C2: round trip.  For every state, key `K`, concrete type `U` with argument
pack `σ` and arguments `args`, constructing a `Registrator<U, A...>(K)` and then
calling `createObject<A...>(K, args)` gives what `U(args)` gives: when the
constructor returns `obj` the result is the non-null pointer to `obj`, and when
it throws, the same exception escapes.  In the demonstration program,
`createObject("name_1", 8, 8, 3.0)` yields a `derived_1` that recorded 67 and
`createObject("name_2", 3, 4)` a `derived_2` that recorded 7. -/
theorem register_then_create_round_trip :
    (∀ (s : State Sig Args E Base) (σ : Sig) (U : Args σ → Except E Base) (K : String)
        (args : Args σ),
      (createObject σ K args (Registrator.ctor σ U K s).2).1 =
        (match U args with
         | .ok obj => Outcome.value (some obj)
         | .error e => Outcome.raised e)) ∧
    (createObject [.int, .int, .float] "name_1" ((8 : Int), (8 : Int), (3 : Rat), ())
        Test.atMain).1 = Outcome.value (some (Test.Obj.derived_1 67)) ∧
    (createObject [.int, .int] "name_2" ((3 : Int), (4 : Int), ())
        Test.atMain).1 = Outcome.value (some (Test.Obj.derived_2 7)) := by
  refine ⟨?_, ?_, ?_⟩
  · intro s σ U K args
    rw [createObject_after_ctor]
  · have hp : Test.atMain.deref 0 =
        some ⟨[Test.CType.int, .int, .float], DerivedFunctor.ctor (create Test.derived_1)⟩ := rfl
    rw [createObject_found _ "name_1" _ Test.atMain 0 _ (by decide) hp]
    simp [DerivedFunctor.ctor, create, Test.derived_1]
    norm_num
  · have hp : Test.atMain.deref 1 =
        some ⟨[Test.CType.int, .int], DerivedFunctor.ctor (create Test.derived_2)⟩ := rfl
    rw [createObject_found _ "name_2" _ Test.atMain 1 _ (by decide) hp]
    simp [DerivedFunctor.ctor, create, Test.derived_2]
    rfl

/-- C3: in every state, when the key of a handle `h` is mapped to a creator `p`
(in particular to the creator that the constructor of `h` inserted), destroying
`h` deletes exactly `p` (the log of deletions grows by `p`, the cell of `p` is
emptied and no other cell changes) and erases the key, so that afterwards
`createObject` under that key returns `nullptr` for every argument list. -/
theorem dtor_removes_own_entry (s : State Sig Args E Base) (h : Registrator) (p : Ptr)
    (hp : (getMap s).lookup h.m_key = some p) :
    (h.dtor s).freed = s.freed ++ [p] ∧
    (h.dtor s).heap = s.heap.set p none ∧
    (getMap (h.dtor s)).lookup h.m_key = none ∧
    ∀ (σ : Sig) (args : Args σ),
      (createObject σ h.m_key args (h.dtor s)).1 = Outcome.value none := by
  have hk : (getMap (h.dtor s)).lookup h.m_key = none := by
    simp [dtor_found h s p hp, getMap]
  refine ⟨by simp [dtor_found h s p hp], by simp [dtor_found h s p hp], hk, ?_⟩
  intro σ args
  rw [createObject_absent σ h.m_key args _ hk]

/-- Witness for C3: the handle of `FF_MACRO(name_1, derived_1, int,int,float)`,
destroyed right after its construction in the initial state, where its key is
mapped to the creator at address 0 that its constructor allocated. -/
theorem dtor_removes_own_entry_witness :
    (getMap (Registrator.ctor [Test.CType.int, .int, .float] Test.derived_1 "name_1"
        State.init).2).lookup
      (Registrator.ctor [Test.CType.int, .int, .float] Test.derived_1 "name_1"
        State.init).1.m_key = some 0 ∧
    (((Registrator.ctor [Test.CType.int, .int, .float] Test.derived_1 "name_1"
        State.init).1.dtor
      (Registrator.ctor [Test.CType.int, .int, .float] Test.derived_1 "name_1"
        State.init).2).freed = [] ++ [0] ∧
     ((Registrator.ctor [Test.CType.int, .int, .float] Test.derived_1 "name_1"
        State.init).1.dtor
      (Registrator.ctor [Test.CType.int, .int, .float] Test.derived_1 "name_1"
        State.init).2).heap =
      (Registrator.ctor [Test.CType.int, .int, .float] Test.derived_1 "name_1"
        State.init).2.heap.set 0 none ∧
     (getMap ((Registrator.ctor [Test.CType.int, .int, .float] Test.derived_1 "name_1"
        State.init).1.dtor
      (Registrator.ctor [Test.CType.int, .int, .float] Test.derived_1 "name_1"
        State.init).2)).lookup "name_1" = none ∧
     ∀ (σ : List Test.CType) (args : Test.Pack σ),
      (createObject σ "name_1" args
        ((Registrator.ctor [Test.CType.int, .int, .float] Test.derived_1 "name_1"
          State.init).1.dtor
         (Registrator.ctor [Test.CType.int, .int, .float] Test.derived_1 "name_1"
          State.init).2)).1 = Outcome.value none) :=
  ⟨by decide,
   dtor_removes_own_entry
     (Registrator.ctor [Test.CType.int, .int, .float] Test.derived_1 "name_1" State.init).2
     (Registrator.ctor [Test.CType.int, .int, .float] Test.derived_1 "name_1" State.init).1
     0 (by decide)⟩

/-- C5: last writer wins without freeing.  In every state that maps `K` to a
creator `c1`, constructing a `Registrator<U, A...>(K)` leaves `K` mapped to the
newly allocated creator, which wraps `create<U, A...>`, so that
`createObject<A...>(K, args)` gives what `U(args)` gives; the registry has
exactly one entry for `K` and as many entries as before; nothing is deleted
(the deletion log is unchanged and the free store only grew by the new cell),
so `c1`, if it was allocated, still is. -/
theorem ctor_overwrites_without_freeing (s : State Sig Args E Base) (σ : Sig)
    (U : Args σ → Except E Base) (K : String) (c1 : Ptr)
    (h : (getMap s).lookup K = some c1) :
    (getMap (Registrator.ctor σ U K s).2).lookup K = some s.heap.length ∧
    (Registrator.ctor σ U K s).2.deref s.heap.length =
      some ⟨σ, DerivedFunctor.ctor (create U)⟩ ∧
    (∀ args : Args σ,
      (createObject σ K args (Registrator.ctor σ U K s).2).1 =
        (match U args with
         | .ok obj => Outcome.value (some obj)
         | .error e => Outcome.raised e)) ∧
    (getMap (Registrator.ctor σ U K s).2).keys.count K = 1 ∧
    (getMap (Registrator.ctor σ U K s).2).keys.length = (getMap s).keys.length ∧
    (Registrator.ctor σ U K s).2.freed = s.freed ∧
    (Registrator.ctor σ U K s).2.heap =
      s.heap ++ [some ⟨σ, DerivedFunctor.ctor (create U)⟩] ∧
    (∀ f, s.deref c1 = some f → (Registrator.ctor σ U K s).2.deref c1 = some f) := by
  have hmem : K ∈ (getMap s).keys := by
    rw [← AList.mem_keys, ← AList.lookup_isSome, h]; rfl
  refine ⟨by simp [getMap, ctor_state], by simp [ctor_state, State.deref], ?_, ?_, ?_,
    rfl, rfl, ?_⟩
  · intro args
    rw [createObject_after_ctor]
  · apply List.count_eq_one_of_mem (AList.keys_nodup _)
    simp [getMap, ctor_state, AList.keys_insert]
  · have hlen := List.length_erase_add_one hmem
    simp only [getMap] at hlen ⊢
    simp only [ctor_state, AList.keys_insert, List.length_cons]
    exact hlen
  · intro f hf
    exact deref_alloc_old s _ f c1 hf

/-- Witness for C5: a second registration under `"name_1"` in the state where
`main` starts, in which `"name_1"` is mapped to the creator at address 0. -/
theorem ctor_overwrites_without_freeing_witness :
    (getMap Test.atMain).lookup "name_1" = some 0 ∧
    (getMap (Registrator.ctor [Test.CType.int, .int] Test.derived_2 "name_1"
        Test.atMain).2).keys.count "name_1" = 1 ∧
    (Registrator.ctor [Test.CType.int, .int] Test.derived_2 "name_1" Test.atMain).2.freed =
      Test.atMain.freed :=
  have h := ctor_overwrites_without_freeing Test.atMain [Test.CType.int, .int]
    Test.derived_2 "name_1" 0 (by decide)
  ⟨by decide, h.2.2.2.1, h.2.2.2.2.2.1⟩

/-- C7: a constructor failure is propagated unchanged.  In every state, when
key `K` is mapped to a creator registered for type `U` with pack `σ` and
`U(args)` throws `e`, `createObject<A...>(K, args)` lets exactly `e` escape (it
is neither `nullptr` nor any other result), and the registry, the free store
and the deletion log are left as they were. -/
theorem createObject_propagates_failure (s : State Sig Args E Base) (σ : Sig)
    (U : Args σ → Except E Base) (K : String) (args : Args σ) (p : Ptr) (e : E)
    (hK : (getMap s).lookup K = some p)
    (hp : s.deref p = some ⟨σ, DerivedFunctor.ctor (create U)⟩)
    (he : U args = Except.error e) :
    (createObject σ K args s).1 = Outcome.raised e ∧
    (createObject σ K args s).1 ≠ Outcome.value none ∧
    (createObject σ K args s).2.m_map = s.m_map ∧
    (createObject σ K args s).2.heap = s.heap ∧
    (createObject σ K args s).2.freed = s.freed := by
  rw [createObject_found σ K args s p _ hK hp]
  simp [DerivedFunctor.ctor, create, he]

/-- Witness for C7: `"name_3"` registered in the initial state for a type
whose constructor always throws. -/
theorem createObject_propagates_failure_witness :
    (getMap (Registrator.ctor [Test.CType.cstr] Test.thrower "name_3" State.init).2).lookup
      "name_3" = some 0 ∧
    (Registrator.ctor [Test.CType.cstr] Test.thrower "name_3" State.init).2.deref 0 =
      some ⟨[Test.CType.cstr], DerivedFunctor.ctor (create Test.thrower)⟩ ∧
    Test.thrower ("Hello World", ()) = Except.error () ∧
    (createObject [Test.CType.cstr] "name_3" ("Hello World", ())
      (Registrator.ctor [Test.CType.cstr] Test.thrower "name_3" State.init).2).1 =
        Outcome.raised () :=
  ⟨by decide, rfl, rfl,
   (createObject_propagates_failure
     (Registrator.ctor [Test.CType.cstr] Test.thrower "name_3" State.init).2
     [Test.CType.cstr] Test.thrower "name_3" ("Hello World", ()) 0 () (by decide) rfl rfl).1⟩

/-- C8: invoking a `DerivedFunctor` is pure forwarding.  For every function `f`
and every argument list, the functor constructed from `f` gives, when invoked,
exactly what `f` gives: it returns `r` exactly when `f` returns `r`, and throws
`e` exactly when `f` throws `e`. -/
theorem DerivedFunctor_call_forwards {E R A : Type} (f : A → Except E R) (args : A) :
    (DerivedFunctor.ctor f).call args = f args ∧
    (∀ r, (DerivedFunctor.ctor f).call args = Except.ok r ↔ f args = Except.ok r) ∧
    (∀ e, (DerivedFunctor.ctor f).call args = Except.error e ↔ f args = Except.error e) :=
  ⟨rfl, fun _ => Iff.rfl, fun _ => Iff.rfl⟩

end Contracts

section Frame

variable {Sig : Type} {Args : Sig → Type} {E Base : Type}

/-- C9: destroying a handle whose key has no entry in the registry does
nothing: in every state the destructor leaves the whole state (registry, free
store, deletion log) exactly as it was. -/
theorem dtor_missing_key_noop (s : State Sig Args E Base) (h : Registrator)
    (hK : (getMap s).lookup h.m_key = none) :
    h.dtor s = s ∧ (h.dtor s).freed = s.freed ∧ (h.dtor s).m_map = s.m_map ∧
    (h.dtor s).heap = s.heap := by
  rw [dtor_absent h s hK]
  exact ⟨rfl, rfl, rfl, rfl⟩

/-- Witness for C9: a handle with key `"name_3"` destroyed in the state where
`main` starts, in which `"name_3"` has no entry. -/
theorem dtor_missing_key_noop_witness :
    (getMap Test.atMain).lookup (Registrator.mk "name_3").m_key = none ∧
    ((Registrator.mk "name_3").dtor Test.atMain = Test.atMain ∧
     ((Registrator.mk "name_3").dtor Test.atMain).freed = Test.atMain.freed ∧
     ((Registrator.mk "name_3").dtor Test.atMain).m_map = Test.atMain.m_map ∧
     ((Registrator.mk "name_3").dtor Test.atMain).heap = Test.atMain.heap) :=
  ⟨by decide, dtor_missing_key_noop Test.atMain (Registrator.mk "name_3") (by decide)⟩

end Frame

end asw.FunctorFactory

/-! ## The invariant of reachable states -/

namespace asw.FunctorFactory

section Invariant

variable {Sig : Type} {Args : Sig → Type} {E Base : Type}

theorem deref_lt (s : State Sig Args E Base) (p : Ptr) (h : (s.deref p).isSome = true) :
    p < s.heap.length := by
  by_contra hge
  have hnone : s.heap[p]? = none := List.getElem?_eq_none (Nat.le_of_not_lt hge)
  simp [State.deref, hnone] at h

theorem Inv_init : Inv (State.init : State Sig Args E Base) := by
  constructor
  · intro k p h
    simp [getMap, State.init] at h
  · intro k₁ k₂ p h
    simp [getMap, State.init] at h

theorem Inv_ctor (σ : Sig) (U : Args σ → Except E Base) (key : String)
    (s : State Sig Args E Base) (hs : Inv s) : Inv (Registrator.ctor σ U key s).2 := by
  obtain ⟨hlive, hinj⟩ := hs
  have hfresh : ∀ k, (getMap s).lookup k ≠ some s.heap.length := by
    intro k hk
    exact absurd (deref_lt s _ (hlive k _ hk)) (Nat.lt_irrefl _)
  constructor
  · intro k p h
    by_cases hk : k = key
    · subst hk
      have hp : p = s.heap.length := by
        simpa [getMap, ctor_state] using h.symm
      subst hp
      simp [ctor_state, State.deref]
    · have hold : (getMap s).lookup k = some p := by
        simpa [getMap, ctor_state, AList.lookup_insert_ne hk] using h
      obtain ⟨g, hg⟩ := Option.isSome_iff_exists.mp (hlive k p hold)
      have hnew := deref_alloc_old s ⟨σ, DerivedFunctor.ctor (create U)⟩ g p hg
      simp only [State.alloc] at hnew
      simp [ctor_state, State.deref] at hnew ⊢
      simp [hnew]
  · intro k₁ k₂ p h₁ h₂
    by_cases hk₁ : k₁ = key
    · by_cases hk₂ : k₂ = key
      · rw [hk₁, hk₂]
      · subst hk₁
        have hp : p = s.heap.length := by
          simpa [getMap, ctor_state] using h₁.symm
        have hold : (getMap s).lookup k₂ = some p := by
          simpa [getMap, ctor_state, AList.lookup_insert_ne hk₂] using h₂
        exact absurd (hp ▸ hold) (hfresh k₂)
    · have hold₁ : (getMap s).lookup k₁ = some p := by
        simpa [getMap, ctor_state, AList.lookup_insert_ne hk₁] using h₁
      by_cases hk₂ : k₂ = key
      · subst hk₂
        have hp : p = s.heap.length := by
          simpa [getMap, ctor_state] using h₂.symm
        exact absurd (hp ▸ hold₁) (hfresh k₁)
      · have hold₂ : (getMap s).lookup k₂ = some p := by
          simpa [getMap, ctor_state, AList.lookup_insert_ne hk₂] using h₂
        exact hinj k₁ k₂ p hold₁ hold₂

theorem lookup_dtor_ne (h : Registrator) (s : State Sig Args E Base) (k : String)
    (hk : k ≠ h.m_key) : (getMap (h.dtor s)).lookup k = (getMap s).lookup k := by
  cases hp : (getMap s).lookup h.m_key with
  | none => rw [dtor_absent h s hp]
  | some p => simp [dtor_found h s p hp, getMap, AList.lookup_erase_ne hk]

theorem lookup_dtor_self (h : Registrator) (s : State Sig Args E Base) :
    (getMap (h.dtor s)).lookup h.m_key = none := by
  cases hp : (getMap s).lookup h.m_key with
  | none => rw [dtor_absent h s hp]; exact hp
  | some p => simp [dtor_found h s p hp, getMap]

theorem deref_dtor_other (h : Registrator) (s : State Sig Args E Base) (hs : Inv s)
    (k : String) (hk : k ≠ h.m_key) (q : Ptr) (hq : (getMap s).lookup k = some q) :
    (h.dtor s).deref q = s.deref q ∧ (h.dtor s).freed.count q = s.freed.count q := by
  cases hp : (getMap s).lookup h.m_key with
  | none => rw [dtor_absent h s hp]; exact ⟨rfl, rfl⟩
  | some p =>
    have hne : p ≠ q := by
      intro hpq
      exact hk (hs.2 k h.m_key q hq (hpq ▸ hp))
    rw [dtor_found h s p hp]
    refine ⟨?_, ?_⟩
    · simp [State.deref, List.getElem?_set_ne hne]
    · simp [List.count_append, List.count_singleton, hne]

theorem Inv_dtor (h : Registrator) (s : State Sig Args E Base) (hs : Inv s) :
    Inv (h.dtor s) := by
  constructor
  · intro k p hk
    have hne : k ≠ h.m_key := by
      intro heq
      rw [heq, lookup_dtor_self] at hk
      cases hk
    rw [lookup_dtor_ne h s k hne] at hk
    rw [(deref_dtor_other h s hs k hne p hk).1]
    exact hs.1 k p hk
  · intro k₁ k₂ p h₁ h₂
    have hne₁ : k₁ ≠ h.m_key := by
      intro heq
      rw [heq, lookup_dtor_self] at h₁
      cases h₁
    have hne₂ : k₂ ≠ h.m_key := by
      intro heq
      rw [heq, lookup_dtor_self] at h₂
      cases h₂
    rw [lookup_dtor_ne h s k₁ hne₁] at h₁
    rw [lookup_dtor_ne h s k₂ hne₂] at h₂
    exact hs.2 k₁ k₂ p h₁ h₂

theorem createObject_frame [DecidableEq Sig] (σ : Sig) (skey : String) (args : Args σ)
    (s : State Sig Args E Base) :
    (createObject σ skey args s).2.m_map = s.m_map ∧
    (createObject σ skey args s).2.heap = s.heap ∧
    (createObject σ skey args s).2.freed = s.freed := by
  cases hk : (getMap s).lookup skey with
  | none => rw [createObject_absent σ skey args s hk]; exact ⟨rfl, rfl, rfl⟩
  | some p =>
    cases hc : (s.deref p).bind (static_cast σ) with
    | none => simp [createObject, hk, hc]
    | some df => cases hr : df.call args <;> simp [createObject, hk, hc, hr]

theorem Inv_createObject [DecidableEq Sig] (σ : Sig) (skey : String) (args : Args σ)
    (s : State Sig Args E Base) (hs : Inv s) : Inv (createObject σ skey args s).2 := by
  obtain ⟨hm, hh, _⟩ := createObject_frame σ skey args s
  unfold Inv getMap State.deref at *
  rw [hm, hh]
  exact hs

theorem Inv_step [DecidableEq Sig] (s : State Sig Args E Base) (op : Op Sig Args E Base)
    (hs : Inv s) : Inv (step s op) := by
  cases op with
  | construct σ U key => exact Inv_ctor σ U key s hs
  | destroy h => exact Inv_dtor h s hs
  | create σ skey args => exact Inv_createObject σ skey args s hs

theorem Inv_run [DecidableEq Sig] (ops : List (Op Sig Args E Base))
    (s : State Sig Args E Base) (hs : Inv s) : Inv (run ops s) := by
  induction ops generalizing s with
  | nil => exact hs
  | cons op ops ih => exact ih (step s op) (Inv_step s op hs)

theorem Reachable.inv [DecidableEq Sig] {s : State Sig Args E Base} (hs : Reachable s) :
    Inv s := by
  obtain ⟨ops, rfl⟩ := hs
  exact Inv_run ops State.init Inv_init

end Invariant

end asw.FunctorFactory

/-! ## Two handles under one key, and independence of entries -/

namespace asw.FunctorFactory

section Overlap

variable {Sig : Type} {Args : Sig → Type} {E Base : Type}

/-- In every state, after a first and then a second handle are constructed
under the same key, destroying the first handle deletes the creator of the
second one and erases the key; the creator of the first handle stays
allocated. -/
theorem dtor_first_after_overwrite (s : State Sig Args E Base) (K : String)
    (σ₁ σ₂ : Sig) (U₁ : Args σ₁ → Except E Base) (U₂ : Args σ₂ → Except E Base) :
    (Registrator.ctor σ₁ U₁ K s).1.dtor
        (Registrator.ctor σ₂ U₂ K (Registrator.ctor σ₁ U₁ K s).2).2 =
      { heap := s.heap ++ [some ⟨σ₁, DerivedFunctor.ctor (create U₁)⟩, none],
        m_map := ((s.m_map.insert K s.heap.length).insert K (s.heap.length + 1)).erase K,
        freed := s.freed ++ [s.heap.length + 1],
        invoked := s.invoked } := by
  have hk : (getMap (Registrator.ctor σ₂ U₂ K (Registrator.ctor σ₁ U₁ K s).2).2).lookup
      (Registrator.ctor σ₁ U₁ K s).1.m_key = some (s.heap.length + 1) := by
    simp [getMap, ctor_state, ctor_handle]
  rw [dtor_found _ _ _ hk]
  simp [ctor_state, ctor_handle, List.set_append]

/-- C4 (the code departs from the claim): with a first handle registered under
`"name_1"` and a second one registered under the same key while the first is
live, the registry maps the key to the creator of the second handle (address
1); destroying the first handle then deletes that creator and erases the key,
so the registry no longer has an entry for `"name_1"` and
`createObject("name_1", 3, 4)` returns `nullptr`, although the second handle is
still live. -/
theorem destroy_first_handle_removes_second_entry :
    (getMap Test.twoHandles.2.2).lookup "name_1" = some 1 ∧
    (getMap (Test.twoHandles.1.dtor Test.twoHandles.2.2)).lookup "name_1" = none ∧
    (Test.twoHandles.1.dtor Test.twoHandles.2.2).freed = [1] ∧
    ((Test.twoHandles.1.dtor Test.twoHandles.2.2).deref 1).isSome = false ∧
    (createObject [.int, .int] "name_1" ((3 : Int), (4 : Int), ())
      (Test.twoHandles.1.dtor Test.twoHandles.2.2)).1 = Outcome.value none := by
  refine ⟨by decide, by decide, by decide, rfl, ?_⟩
  rw [createObject_absent _ "name_1" _ _ (by decide)]

/-- C6 (the code departs from the claim): two handles are registered under
`"name_1"` from the initial state and then both are destroyed, in either
order.  The registry ends empty, but only the creator of the second handle
(address 1) was deleted; the creator allocated by the first handle (address 0)
is still allocated and was never deleted: it is leaked. -/
theorem cleanup_leaks_overwritten_creator :
    ((getMap (Test.twoHandles.1.dtor (Test.twoHandles.2.1.dtor Test.twoHandles.2.2))).keys = [] ∧
     (Test.twoHandles.1.dtor (Test.twoHandles.2.1.dtor Test.twoHandles.2.2)).freed = [1] ∧
     ((Test.twoHandles.1.dtor (Test.twoHandles.2.1.dtor Test.twoHandles.2.2)).deref 0).isSome
        = true) ∧
    ((getMap (Test.twoHandles.2.1.dtor (Test.twoHandles.1.dtor Test.twoHandles.2.2))).keys = [] ∧
     (Test.twoHandles.2.1.dtor (Test.twoHandles.1.dtor Test.twoHandles.2.2)).freed = [1] ∧
     ((Test.twoHandles.2.1.dtor (Test.twoHandles.1.dtor Test.twoHandles.2.2)).deref 0).isSome
        = true) := by
  refine ⟨⟨by decide, by decide, rfl⟩, ⟨by decide, by decide, rfl⟩⟩

/-- C10: entries are independent.  In every reachable state, for keys `K` and
`K2` with `K2 ≠ K`, constructing a handle under `K` and destroying a handle
whose key is `K` both leave the entry for `K2` as it was (present or absent,
and mapped to the same creator); and the creator stored under `K2` is
allocated, stays as it was, and is deleted by neither operation (it occurs in
the deletion log as often as before). -/
theorem entries_independent [DecidableEq Sig] (s : State Sig Args E Base)
    (hs : Reachable s) (K K2 : String) (hne : K2 ≠ K) (σ : Sig) (U : Args σ → Except E Base) :
    (getMap (Registrator.ctor σ U K s).2).lookup K2 = (getMap s).lookup K2 ∧
    (getMap ((Registrator.mk K).dtor s)).lookup K2 = (getMap s).lookup K2 ∧
    ∀ p2 : Ptr, (getMap s).lookup K2 = some p2 →
      (s.deref p2).isSome = true ∧
      (Registrator.ctor σ U K s).2.deref p2 = s.deref p2 ∧
      (Registrator.ctor σ U K s).2.freed.count p2 = s.freed.count p2 ∧
      ((Registrator.mk K).dtor s).deref p2 = s.deref p2 ∧
      ((Registrator.mk K).dtor s).freed.count p2 = s.freed.count p2 := by
  have hinv := hs.inv
  refine ⟨by simp [getMap, ctor_state, AList.lookup_insert_ne hne],
    lookup_dtor_ne (Registrator.mk K) s K2 hne, ?_⟩
  intro p2 hp2
  have hlive := hinv.1 K2 p2 hp2
  obtain ⟨g, hg⟩ := Option.isSome_iff_exists.mp hlive
  have hd := deref_dtor_other (Registrator.mk K) s hinv K2 hne p2 hp2
  refine ⟨hlive, ?_, rfl, hd.1, hd.2⟩
  rw [hg]
  exact deref_alloc_old s _ g p2 hg

/-- Witness for C10: the state where `main` starts, with `K = "name_1"` and
`K2 = "name_2"`. -/
theorem entries_independent_witness :
    Reachable Test.atMain ∧ "name_2" ≠ "name_1" ∧
    (getMap (Registrator.ctor [Test.CType.int, .int] Test.derived_2 "name_1"
      Test.atMain).2).lookup "name_2" = (getMap Test.atMain).lookup "name_2" ∧
    (getMap ((Registrator.mk "name_1").dtor Test.atMain)).lookup "name_2" =
      (getMap Test.atMain).lookup "name_2" :=
  have h := entries_independent Test.atMain
    ⟨[Op.construct [Test.CType.int, .int, .float] Test.derived_1 "name_1",
      Op.construct [Test.CType.int, .int] Test.derived_2 "name_2"], rfl⟩
    "name_1" "name_2" (by decide) [Test.CType.int, .int] Test.derived_2
  ⟨⟨[Op.construct [Test.CType.int, .int, .float] Test.derived_1 "name_1",
      Op.construct [Test.CType.int, .int] Test.derived_2 "name_2"], rfl⟩,
   by decide, h.1, h.2.1⟩

end Overlap

end asw.FunctorFactory

/-! ## `createObject` only reads the registry -/

namespace asw.FunctorFactory

section ReadOnly

variable {Sig : Type} [DecidableEq Sig] {Args : Sig → Type} {E Base : Type}

theorem createObject_cases (σ : Sig) (skey : String) (args : Args σ)
    (s : State Sig Args E Base) :
    ∃ (r : Outcome E (Option Base)) (l : List Ptr), l.length ≤ 1 ∧
      ∀ t : State Sig Args E Base, t.m_map = s.m_map → t.heap = s.heap →
        createObject σ skey args t = (r, { t with invoked := t.invoked ++ l }) := by
  cases hk : s.m_map.lookup skey with
  | none =>
    refine ⟨Outcome.value none, [], Nat.zero_le 1, ?_⟩
    intro t hm hh
    rw [createObject_absent σ skey args t (by rw [getMap, hm, hk])]
    simp
  | some p =>
    cases hc : (s.heap[p]?.join).bind (static_cast σ) with
    | none =>
      refine ⟨Outcome.undefined, [], Nat.zero_le 1, ?_⟩
      intro t hm hh
      obtain ⟨th, tm, tf, ti⟩ := t
      simp only at hm hh
      subst hm hh
      simp only [createObject, getMap, State.deref, hk, hc, List.append_nil]
    | some df =>
      cases hr : df.call args with
      | ok r =>
        refine ⟨Outcome.value r, [p], Nat.le_refl 1, ?_⟩
        intro t hm hh
        obtain ⟨th, tm, tf, ti⟩ := t
        simp only at hm hh
        subst hm hh
        simp only [createObject, getMap, State.deref, hk, hc, hr]
      | error e =>
        refine ⟨Outcome.raised e, [p], Nat.le_refl 1, ?_⟩
        intro t hm hh
        obtain ⟨th, tm, tf, ti⟩ := t
        simp only at hm hh
        subst hm hh
        simp only [createObject, getMap, State.deref, hk, hc, hr]

/-- C11: `createObject` is read-only on the registry.  In every state, for
every key and argument list (wrapped functions being pure), the registry after
the call is the registry before it, whether the key was found or not, and so
are the free store and the deletion log; consequently a second call with the
same key and arguments finds the same entry (or none), gives the same result
and invokes the same creator: both calls extend the log of invocations by the
same list, of at most one address. -/
theorem createObject_read_only (s : State Sig Args E Base) (σ : Sig) (K : String)
    (args : Args σ) :
    (createObject σ K args s).2.m_map = s.m_map ∧
    (createObject σ K args s).2.heap = s.heap ∧
    (createObject σ K args s).2.freed = s.freed ∧
    (getMap (createObject σ K args s).2).lookup K = (getMap s).lookup K ∧
    (createObject σ K args (createObject σ K args s).2).1 = (createObject σ K args s).1 ∧
    ∃ l : List Ptr, l.length ≤ 1 ∧
      (createObject σ K args s).2.invoked = s.invoked ++ l ∧
      (createObject σ K args (createObject σ K args s).2).2.invoked =
        (createObject σ K args s).2.invoked ++ l := by
  obtain ⟨hm, hh, hf⟩ := createObject_frame σ K args s
  obtain ⟨r, l, hlen, hl⟩ := createObject_cases σ K args s
  have h1 := hl s rfl rfl
  have h2 := hl (createObject σ K args s).2 hm hh
  exact ⟨hm, hh, hf, by simp [getMap, hm], by rw [h2, h1], l, hlen, by rw [h1], by rw [h2]⟩

end ReadOnly

end asw.FunctorFactory

/-! ## Copying a `DerivedFunctor` -/

namespace asw.FunctorFactory

/-- C12 (the code departs from the claim for `operator=`): a functor
copy-constructed from `df` returns on every argument list exactly what `df`
returns.  The body of `operator=` stores the function pointer of `df`, so the
object it leaves behind would return what `df` returns, but the body then
flows off its end without a `return` statement although the operator is
declared to return a reference: every call of `operator=` is undefined
behaviour, for instance assigning a copy of the creator of `derived_2` to
that creator. -/
theorem copy_preserves_assign_flows_off :
    (∀ (E R A : Type) (df : DerivedFunctor E R A) (args : A),
      (DerivedFunctor.copy df).call args = df.call args) ∧
    (∀ (E R A : Type) (self df : DerivedFunctor E R A),
      ∃ after : DerivedFunctor E R A,
        self.assignBody df = Completion.flowedOff after ∧
        ∀ args : A, after.call args = df.call args) ∧
    (∀ (E R A : Type) (self df : DerivedFunctor E R A),
      self.assign df = Outcome.undefined) ∧
    (DerivedFunctor.ctor (create Test.derived_2)).assign
      (DerivedFunctor.copy (DerivedFunctor.ctor (create Test.derived_2))) =
        Outcome.undefined :=
  ⟨fun _ _ _ _ _ => rfl, fun _ _ _ _ df => ⟨{ _f := df._f }, rfl, fun _ => rfl⟩,
   fun _ _ _ _ _ => rfl, rfl⟩

end asw.FunctorFactory

/-! ## No dangling entry, no double free -/

namespace asw.FunctorFactory

section Safety

variable {Sig : Type} {Args : Sig → Type} {E Base : Type}

theorem FreedInv_init : FreedInv (State.init : State Sig Args E Base) := by
  constructor
  · intro p hp
    simp [State.init] at hp
  · simp [State.init]

theorem FreedInv_ctor (σ : Sig) (U : Args σ → Except E Base) (key : String)
    (s : State Sig Args E Base) (hs : FreedInv s) :
    FreedInv (Registrator.ctor σ U key s).2 := by
  obtain ⟨hcell, hnd⟩ := hs
  constructor
  · intro p hp
    obtain ⟨hlt, hnone⟩ := hcell p hp
    constructor
    · simp only [ctor_state, List.length_append, List.length_singleton]
      exact Nat.lt_succ_of_lt hlt
    · simp only [ctor_state, State.deref, List.getElem?_append_left hlt]
      exact hnone
  · exact hnd

theorem not_freed_of_live (s : State Sig Args E Base) (hs : FreedInv s) (p : Ptr)
    (hp : (s.deref p).isSome = true) : p ∉ s.freed := by
  intro hmem
  rw [(hs.1 p hmem).2] at hp
  cases hp

theorem FreedInv_dtor (h : Registrator) (s : State Sig Args E Base) (hi : Inv s)
    (hs : FreedInv s) : FreedInv (h.dtor s) := by
  cases hp : (getMap s).lookup h.m_key with
  | none => rw [dtor_absent h s hp]; exact hs
  | some p =>
    have hlive := hi.1 h.m_key p hp
    have hlt := deref_lt s p hlive
    have hnew := not_freed_of_live s hs p hlive
    rw [dtor_found h s p hp]
    constructor
    · intro q hq
      simp only [List.mem_append, List.mem_singleton] at hq
      simp only [List.length_set, State.deref]
      by_cases hqp : q = p
      · subst hqp
        exact ⟨hlt, by simp [List.getElem?_set_self hlt]⟩
      · have hq' : q ∈ s.freed := by
          cases hq with
          | inl hq => exact hq
          | inr hq => exact absurd hq hqp
        obtain ⟨hqlt, hqnone⟩ := hs.1 q hq'
        refine ⟨hqlt, ?_⟩
        rw [List.getElem?_set_ne (Ne.symm hqp)]
        exact hqnone
    · simp only
      rw [List.nodup_append]
      refine ⟨hs.2, List.nodup_singleton p, ?_⟩
      intro a ha hb
      rw [List.mem_singleton] at hb
      exact hnew (hb ▸ ha)

theorem FreedInv_createObject [DecidableEq Sig] (σ : Sig) (skey : String) (args : Args σ)
    (s : State Sig Args E Base) (hs : FreedInv s) : FreedInv (createObject σ skey args s).2 := by
  obtain ⟨_, hh, hf⟩ := createObject_frame σ skey args s
  unfold FreedInv State.deref at *
  rw [hh, hf]
  exact hs

theorem Inv_FreedInv_run [DecidableEq Sig] (ops : List (Op Sig Args E Base))
    (s : State Sig Args E Base) (hi : Inv s) (hs : FreedInv s) :
    Inv (run ops s) ∧ FreedInv (run ops s) := by
  induction ops generalizing s with
  | nil => exact ⟨hi, hs⟩
  | cons op ops ih =>
    refine ih (step s op) (Inv_step s op hi) ?_
    cases op with
    | construct σ U key => exact FreedInv_ctor σ U key s hs
    | destroy h => exact FreedInv_dtor h s hi hs
    | create σ skey args => exact FreedInv_createObject σ skey args s hs

theorem createObject_invoked [DecidableEq Sig] (σ : Sig) (skey : String) (args : Args σ)
    (s : State Sig Args E Base) (p : Ptr)
    (h : (createObject σ skey args s).2.invoked = s.invoked ++ [p]) :
    (getMap s).lookup skey = some p := by
  cases hk : (getMap s).lookup skey with
  | none =>
    rw [createObject_absent σ skey args s hk] at h
    simp at h
  | some q =>
    cases hc : (s.deref q).bind (static_cast σ) with
    | none => simp [createObject, hk, hc] at h
    | some df =>
      cases hr : df.call args <;> simp [createObject, hk, hc, hr] at h <;> rw [h]

/-- C13: no dangling entry and no double free.  In every state reachable from
the initial one by handle constructions, handle destructions and
`createObject` calls in any order: every creator stored in the registry is
allocated and has not been deleted; no creator is stored under two keys; no
address occurs twice in the deletion log; hence whenever `createObject`
invokes a creator, that creator is allocated and has not been deleted. -/
theorem no_dangling_entry_no_double_free [DecidableEq Sig] (s : State Sig Args E Base)
    (hs : Reachable s) :
    (∀ (k : String) (p : Ptr), (getMap s).lookup k = some p →
      (s.deref p).isSome = true ∧ p ∉ s.freed) ∧
    (∀ (k₁ k₂ : String) (p : Ptr),
      (getMap s).lookup k₁ = some p → (getMap s).lookup k₂ = some p → k₁ = k₂) ∧
    s.freed.Nodup ∧
    (∀ (σ : Sig) (K : String) (args : Args σ) (p : Ptr),
      (createObject σ K args s).2.invoked = s.invoked ++ [p] →
        (s.deref p).isSome = true ∧ p ∉ s.freed) := by
  obtain ⟨ops, rfl⟩ := hs
  obtain ⟨hi, hf⟩ := Inv_FreedInv_run ops State.init Inv_init FreedInv_init
  have hstored : ∀ (k : String) (p : Ptr), (getMap (run ops State.init)).lookup k = some p →
      ((run ops State.init).deref p).isSome = true ∧ p ∉ (run ops State.init).freed :=
    fun k p hk => ⟨hi.1 k p hk, not_freed_of_live _ hf p (hi.1 k p hk)⟩
  refine ⟨hstored, hi.2, hf.2, ?_⟩
  intro σ K args p hinv
  exact hstored K p (createObject_invoked σ K args _ p hinv)

/-- Witness for C13: the state after two handles were registered under
`"name_1"` and the first one was destroyed. -/
theorem no_dangling_entry_no_double_free_witness :
    Reachable (Test.twoHandles.1.dtor Test.twoHandles.2.2) ∧
    (Test.twoHandles.1.dtor Test.twoHandles.2.2).freed.Nodup :=
  ⟨⟨[Op.construct [Test.CType.int, .int, .float] Test.derived_1 "name_1",
      Op.construct [Test.CType.int, .int] Test.derived_2 "name_1",
      Op.destroy ⟨"name_1"⟩], rfl⟩,
   (no_dangling_entry_no_double_free (Test.twoHandles.1.dtor Test.twoHandles.2.2)
     ⟨[Op.construct [Test.CType.int, .int, .float] Test.derived_1 "name_1",
       Op.construct [Test.CType.int, .int] Test.derived_2 "name_1",
       Op.destroy ⟨"name_1"⟩], rfl⟩).2.2.1⟩

end Safety

end asw.FunctorFactory

/-! ## The registry and the live handles -/

namespace asw.FunctorFactory

section Handles

variable {Sig : Type} {Args : Sig → Type} {E Base : Type}

theorem mem_dtor (h : Registrator) (s : State Sig Args E Base) (k : String) :
    k ∈ getMap (h.dtor s) ↔ k ≠ h.m_key ∧ k ∈ getMap s := by
  rw [← AList.lookup_isSome, ← AList.lookup_isSome]
  by_cases hk : k = h.m_key
  · subst hk
    simp [lookup_dtor_self]
  · rw [lookup_dtor_ne h s k hk]
    simp [hk]

theorem World.run_cons [DecidableEq Sig] (e : Event Sig Args E Base)
    (es : List (Event Sig Args E Base)) (w w' : World Sig Args E Base)
    (h : World.run (e :: es) w = some w') :
    ∃ w₁, w.step e = some w₁ ∧ World.run es w₁ = some w' := by
  cases hstep : w.step e with
  | none => simp [World.run, hstep] at h
  | some w₁ => exact ⟨w₁, rfl, by simpa [World.run, hstep] using h⟩

theorem Held_step [DecidableEq Sig] (w w' : World Sig Args E Base)
    (e : Event Sig Args E Base) (hw : Held w) (hstep : w.step e = some w') : Held w' := by
  cases e with
  | construct σ U key =>
    simp only [World.step, Option.some.injEq] at hstep
    subst hstep
    intro k hk
    simp only [getMap, ctor_state, AList.mem_insert] at hk
    cases hk with
    | inl hk =>
      exact ⟨⟨(Registrator.ctor σ U key w.st).1, w.st.heap.length⟩,
        List.mem_append_right _ (List.mem_singleton_self _), by rw [ctor_handle, hk]⟩
    | inr hk =>
      obtain ⟨h, hmem, hkey⟩ := hw k hk
      exact ⟨h, List.mem_append_left _ hmem, hkey⟩
  | destroy h =>
    simp only [World.step] at hstep
    split at hstep
    · simp only [Option.some.injEq] at hstep
      subst hstep
      intro k hk
      obtain ⟨hne, hmem⟩ := (mem_dtor h.reg w.st k).mp hk
      obtain ⟨h', hmem', hkey⟩ := hw k hmem
      have hdiff : h' ≠ h := by
        intro heq
        exact hne (by rw [← hkey, heq])
      exact ⟨h', (List.mem_erase_of_ne hdiff).mpr hmem', hkey⟩
    · cases hstep
  | create σ skey args =>
    simp only [World.step, Option.some.injEq] at hstep
    subst hstep
    intro k hk
    have hm := (createObject_frame σ skey args w.st).1
    simp only [getMap, hm] at hk
    exact hw k hk

theorem Held_run [DecidableEq Sig] (es : List (Event Sig Args E Base))
    (w w' : World Sig Args E Base) (hw : Held w) (hrun : World.run es w = some w') :
    Held w' := by
  induction es generalizing w with
  | nil =>
    simp only [World.run, Option.some.injEq] at hrun
    exact hrun ▸ hw
  | cons e es ih =>
    obtain ⟨w₁, hstep, hrest⟩ := World.run_cons e es w w' hrun
    exact ih w₁ (Held_step w w₁ e hw hstep) hrest

/-- C14: every registered key has a live handle.  In every state reached from
the initial one by a sequence of handle constructions and destructions (with
`createObject` calls in between, if any), where only live handles are
destroyed, each key present in the registry is the key of at least one handle
that was constructed and is not yet destroyed; in particular the registry is
empty whenever no handle is live. -/
theorem registered_key_has_live_handle [DecidableEq Sig] (es : List (Event Sig Args E Base))
    (w : World Sig Args E Base) (hrun : World.run es World.init = some w) :
    (∀ k : String, k ∈ (getMap w.st).keys → ∃ h : Handle, h ∈ w.live ∧ h.reg.m_key = k) ∧
    (w.live = [] → (getMap w.st).keys = []) := by
  have hinit : Held (World.init : World Sig Args E Base) := by
    intro k hk
    simp [getMap, World.init, State.init] at hk
  have hw := Held_run es World.init w hinit hrun
  have hkeys : ∀ k : String, k ∈ (getMap w.st).keys →
      ∃ h : Handle, h ∈ w.live ∧ h.reg.m_key = k :=
    fun k hk => hw k (AList.mem_keys.mpr hk)
  refine ⟨hkeys, ?_⟩
  intro hlive
  apply List.eq_nil_iff_forall_not_mem.mpr
  intro k hk
  obtain ⟨h, hmem, _⟩ := hkeys k hk
  rw [hlive] at hmem
  cases hmem

/-- Witness for C14: two handles are constructed under `"name_1"`, a third one
under `"name_2"`, and the first one is destroyed; the registry then holds only
`"name_2"`, whose handle is live (and so is the second handle of `"name_1"`). -/
theorem registered_key_has_live_handle_witness :
    World.run
      [Event.construct [Test.CType.int, .int, .float] Test.derived_1 "name_1",
       Event.construct [Test.CType.int, .int] Test.derived_2 "name_1",
       Event.construct [Test.CType.int, .int] Test.derived_2 "name_2",
       Event.destroy ⟨⟨"name_1"⟩, 0⟩] World.init =
      some ⟨(Registrator.mk "name_1").dtor
          (Registrator.ctor [Test.CType.int, .int] Test.derived_2 "name_2"
            Test.twoHandles.2.2).2,
        [⟨⟨"name_1"⟩, 1⟩, ⟨⟨"name_2"⟩, 2⟩], [⟨⟨"name_1"⟩, 0⟩]⟩ ∧
    (getMap ((Registrator.mk "name_1").dtor
      (Registrator.ctor [Test.CType.int, .int] Test.derived_2 "name_2"
        Test.twoHandles.2.2).2)).keys = ["name_2"] ∧
    ∀ k : String,
      k ∈ (getMap ((Registrator.mk "name_1").dtor
        (Registrator.ctor [Test.CType.int, .int] Test.derived_2 "name_2"
          Test.twoHandles.2.2).2)).keys →
      ∃ h : Handle, h ∈ [(⟨⟨"name_1"⟩, 1⟩ : Handle), ⟨⟨"name_2"⟩, 2⟩] ∧ h.reg.m_key = k :=
  ⟨rfl, by decide,
   (registered_key_has_live_handle
     [Event.construct [Test.CType.int, .int, .float] Test.derived_1 "name_1",
      Event.construct [Test.CType.int, .int] Test.derived_2 "name_1",
      Event.construct [Test.CType.int, .int] Test.derived_2 "name_2",
      Event.destroy ⟨⟨"name_1"⟩, 0⟩]
     ⟨(Registrator.mk "name_1").dtor
         (Registrator.ctor [Test.CType.int, .int] Test.derived_2 "name_2"
           Test.twoHandles.2.2).2,
       [⟨⟨"name_1"⟩, 1⟩, ⟨⟨"name_2"⟩, 2⟩], [⟨⟨"name_1"⟩, 0⟩]⟩
     rfl).1⟩

end Handles

end asw.FunctorFactory

/-! ## One handle per key: the registry mirrors the live handles -/

namespace asw.FunctorFactory

section Discipline

variable {Sig : Type} {Args : Sig → Type} {E Base : Type}

theorem Mirror_init : Mirror (World.init : World Sig Args E Base) := by
  refine ⟨?_, ?_, ?_, ?_, ?_⟩
  · intro h hmem
    simp [World.init] at hmem
  · intro k p hk
    simp [World.init, State.init, getMap] at hk
  · simp [World.init]
  · simp [World.init, State.init]
  · simp [World.init, State.init]

theorem Handle.eq_of_key_of_made (h h' : Handle) (hk : h.reg.m_key = h'.reg.m_key)
    (hm : h.made = h'.made) : h = h' := by
  obtain ⟨⟨k⟩, m⟩ := h
  obtain ⟨⟨k'⟩, m'⟩ := h'
  simp only at hk hm
  subst hk hm
  rfl

theorem Mirror_construct (w : World Sig Args E Base) (σ : Sig) (U : Args σ → Except E Base)
    (key : String) (hw : Mirror w) (hfree : ∀ h : Handle, h ∈ w.live → h.reg.m_key ≠ key) :
    Mirror ({ st := (Registrator.ctor σ U key w.st).2,
              live := w.live ++ [⟨(Registrator.ctor σ U key w.st).1, w.st.heap.length⟩],
              dead := w.dead } : World Sig Args E Base) := by
  obtain ⟨hown, hreg, hnd, hfreed, hperm⟩ := hw
  refine ⟨?_, ?_, ?_, ?_, ?_⟩
  · intro h hmem
    simp only [List.mem_append, List.mem_singleton] at hmem
    cases hmem with
    | inl hmem =>
      simp only [getMap, ctor_state, AList.lookup_insert_ne (hfree h hmem)]
      exact hown h hmem
    | inr hmem =>
      subst hmem
      simp [getMap, ctor_state, ctor_handle]
  · intro k p hk
    by_cases hkey : k = key
    · subst hkey
      have hp : p = w.st.heap.length := by
        simpa [getMap, ctor_state] using hk.symm
      subst hp
      exact List.mem_append_right _ (by simp [ctor_handle])
    · have hold : (getMap w.st).lookup k = some p := by
        simpa [getMap, ctor_state, AList.lookup_insert_ne hkey] using hk
      exact List.mem_append_left _ (hreg k p hold)
  · simp only
    rw [List.nodup_append]
    refine ⟨hnd, List.nodup_singleton _, ?_⟩
    intro a ha hb
    rw [List.mem_singleton] at hb
    subst hb
    exact hfree _ ha (by rw [ctor_handle])
  · exact hfreed
  · simp only [ctor_state, List.length_append, List.length_singleton, List.range_succ]
    rw [List.perm_iff_count] at hperm ⊢
    intro a
    have ha := hperm a
    simp only [List.map_append, List.count_append, List.map_cons, List.map_nil] at ha ⊢
    omega

theorem Mirror_destroy (w : World Sig Args E Base) (h : Handle) (hw : Mirror w)
    (hmem : h ∈ w.live) :
    Mirror ({ st := h.reg.dtor w.st, live := w.live.erase h, dead := w.dead ++ [h] } :
      World Sig Args E Base) := by
  obtain ⟨hown, hreg, hnd, hfreed, hperm⟩ := hw
  have hp := hown h hmem
  have hother : ∀ h' : Handle, h' ∈ w.live → h' ≠ h → h'.reg.m_key ≠ h.reg.m_key := by
    intro h' hmem' hne hkey
    have hmade : some h'.made = some h.made := by
      rw [← hown h' hmem', hkey, hp]
    exact hne (Handle.eq_of_key_of_made h' h hkey (Option.some.inj hmade))
  refine ⟨?_, ?_, ?_, ?_, ?_⟩
  · intro h' hmem'
    obtain ⟨hne, hin⟩ := (hnd.mem_erase_iff).mp hmem'
    simp only
    rw [lookup_dtor_ne h.reg w.st h'.reg.m_key (hother h' hin hne)]
    exact hown h' hin
  · intro k p hk
    simp only at hk
    have hne : k ≠ h.reg.m_key := by
      intro heq
      rw [heq, lookup_dtor_self] at hk
      cases hk
    rw [lookup_dtor_ne h.reg w.st k hne] at hk
    have hdiff : (⟨⟨k⟩, p⟩ : Handle) ≠ h := by
      intro heq
      exact hne (by rw [← heq])
    exact (List.mem_erase_of_ne hdiff).mpr (hreg k p hk)
  · exact hnd.erase h
  · simp only [dtor_found h.reg w.st h.made hp, hfreed, List.map_append, List.map_cons,
      List.map_nil]
  · have hlen : (h.reg.dtor w.st).heap.length = w.st.heap.length := by
      simp [dtor_found h.reg w.st h.made hp]
    simp only [hlen]
    refine List.Perm.trans (List.Perm.map _ ?_) hperm
    have hcons := (List.perm_cons_erase hmem).append_right w.dead
    refine List.Perm.trans ?_ hcons.symm
    rw [← List.append_assoc]
    exact List.perm_append_singleton h (w.live.erase h ++ w.dead)

theorem Mirror_create [DecidableEq Sig] (w : World Sig Args E Base) (σ : Sig)
    (skey : String) (args : Args σ) (hw : Mirror w) :
    Mirror ({ st := (createObject σ skey args w.st).2, live := w.live, dead := w.dead } :
      World Sig Args E Base) := by
  obtain ⟨hm, hh, hf⟩ := createObject_frame σ skey args w.st
  unfold Mirror getMap at *
  simp only [hm, hh, hf]
  exact hw

theorem Mirror_step [DecidableEq Sig] (w w' : World Sig Args E Base)
    (e : Event Sig Args E Base) (hw : Mirror w) (hd : w.disciplined e = true)
    (hstep : w.step e = some w') : Mirror w' := by
  cases e with
  | construct σ U key =>
    simp only [World.step, Option.some.injEq] at hstep
    subst hstep
    apply Mirror_construct w σ U key hw
    intro h hmem
    simp only [World.disciplined, List.all_eq_true] at hd
    exact bne_iff_ne.mp (hd h hmem)
  | destroy h =>
    simp only [World.step] at hstep
    split at hstep
    · rename_i hmem
      simp only [Option.some.injEq] at hstep
      subst hstep
      exact Mirror_destroy w h hw hmem
    · cases hstep
  | create σ skey args =>
    simp only [World.step, Option.some.injEq] at hstep
    subst hstep
    exact Mirror_create w σ skey args hw

theorem Mirror_run [DecidableEq Sig] (es : List (Event Sig Args E Base))
    (w w' : World Sig Args E Base) (hw : Mirror w)
    (hrun : World.runDisciplined es w = some w') : Mirror w' := by
  induction es generalizing w with
  | nil =>
    simp only [World.runDisciplined, Option.some.injEq] at hrun
    exact hrun ▸ hw
  | cons e es ih =>
    simp only [World.runDisciplined] at hrun
    split at hrun
    · rename_i hd
      cases hstep : w.step e with
      | none => simp [hstep] at hrun
      | some w₁ =>
        rw [hstep] at hrun
        exact ih w₁ (Mirror_step w w₁ e hw hd hstep) hrun
    · cases hrun

/-- C15: under the one-handle-per-key discipline the registry mirrors the live
handles exactly.  After every sequence of handle constructions and
destructions (with `createObject` calls in between, if any) in which no handle
is constructed under a key that a live handle holds: the keys of the registry
are exactly the keys of the live handles; each live handle has its key mapped
to the creator its own constructor allocated, and destroying it deletes
exactly that creator; the deletion log lists exactly the creators of the
destroyed handles, in the order of destruction; every allocated address is the
creator of exactly one handle, live or destroyed, so that when no handle is
live the registry is empty and every allocated creator has been deleted
exactly once. -/
theorem registry_mirrors_live_handles [DecidableEq Sig] (es : List (Event Sig Args E Base))
    (w : World Sig Args E Base) (hrun : World.runDisciplined es World.init = some w) :
    (∀ k : String, k ∈ (getMap w.st).keys ↔ ∃ h : Handle, h ∈ w.live ∧ h.reg.m_key = k) ∧
    (∀ h : Handle, h ∈ w.live → (getMap w.st).lookup h.reg.m_key = some h.made) ∧
    (∀ h : Handle, h ∈ w.live →
      (h.reg.dtor w.st).freed = w.st.freed ++ [h.made] ∧
      (h.reg.dtor w.st).heap = w.st.heap.set h.made none) ∧
    w.st.freed = w.dead.map Handle.made ∧
    ((w.live ++ w.dead).map Handle.made).Perm (List.range w.st.heap.length) ∧
    (w.live = [] →
      (getMap w.st).keys = [] ∧ w.st.freed.Perm (List.range w.st.heap.length)) := by
  obtain ⟨hown, hreg, hnd, hfreed, hperm⟩ := Mirror_run es World.init w Mirror_init hrun
  have hkeys : ∀ k : String, k ∈ (getMap w.st).keys ↔
      ∃ h : Handle, h ∈ w.live ∧ h.reg.m_key = k := by
    intro k
    constructor
    · intro hk
      have hsome := AList.lookup_isSome.mpr (AList.mem_keys.mpr hk)
      obtain ⟨p, hp⟩ := Option.isSome_iff_exists.mp hsome
      exact ⟨⟨⟨k⟩, p⟩, hreg k p hp, rfl⟩
    · rintro ⟨h, hmem, rfl⟩
      apply AList.mem_keys.mp
      rw [← AList.lookup_isSome, hown h hmem]
      rfl
  refine ⟨hkeys, hown, ?_, hfreed, hperm, ?_⟩
  · intro h hmem
    rw [dtor_found h.reg w.st h.made (hown h hmem)]
    exact ⟨rfl, rfl⟩
  · intro hlive
    constructor
    · apply List.eq_nil_iff_forall_not_mem.mpr
      intro k hk
      obtain ⟨h, hmem, _⟩ := (hkeys k).mp hk
      rw [hlive] at hmem
      cases hmem
    · rw [hfreed]
      simpa [hlive] using hperm

/-- Witness for C15: the two registrations of the demonstration program,
followed by the destruction of the handle of `"name_1"`. -/
theorem registry_mirrors_live_handles_witness :
    World.runDisciplined
      [Event.construct [Test.CType.int, .int, .float] Test.derived_1 "name_1",
       Event.construct [Test.CType.int, .int] Test.derived_2 "name_2",
       Event.destroy ⟨⟨"name_1"⟩, 0⟩] World.init =
      some ⟨(Registrator.mk "name_1").dtor Test.atMain, [⟨⟨"name_2"⟩, 1⟩],
        [⟨⟨"name_1"⟩, 0⟩]⟩ ∧
    ((Registrator.mk "name_1").dtor Test.atMain).freed =
      [(⟨⟨"name_1"⟩, 0⟩ : Handle)].map Handle.made ∧
    ∀ h : Handle, h ∈ [(⟨⟨"name_2"⟩, 1⟩ : Handle)] →
      (getMap ((Registrator.mk "name_1").dtor Test.atMain)).lookup h.reg.m_key = some h.made :=
  have h := registry_mirrors_live_handles
    [Event.construct [Test.CType.int, .int, .float] Test.derived_1 "name_1",
     Event.construct [Test.CType.int, .int] Test.derived_2 "name_2",
     Event.destroy ⟨⟨"name_1"⟩, 0⟩]
    ⟨(Registrator.mk "name_1").dtor Test.atMain, [⟨⟨"name_2"⟩, 1⟩], [⟨⟨"name_1"⟩, 0⟩]⟩
    rfl
  ⟨rfl, h.2.2.2.1, h.2.1⟩

end Discipline

end asw.FunctorFactory
